import Mathlib

/-!
Shallow embedding of `src/app/scripts/common/mathutil.ts` from the
ShapeShifter repository, together with proofs of the specification claims
about it.

JavaScript numbers are modelled as exact rationals (`ℚ`): every operation in
the file is field arithmetic, comparison, or `Math.sqrt`/`Math.hypot`; the
square roots land in `ℝ`.  The variadic `...` parameters of `transform`,
`areCollinear` and the array parameter of `flattenTransforms` are modelled as
`List`s, and `Array.prototype.reduce` with an initial value is `List.foldl`.
For the one claim about `NaN` propagation, a second number model `JsNum`
(a finite rational, `NaN`, or `±Infinity`) is used, with the JavaScript
semantics of `-`, `Math.abs` and `<` on the non-finite values.
-/

namespace ShapeShifter

/-- `interface IPoint { x: number; y: number; }` — any object with numeric
`x`/`y` fields. -/
structure IPoint where
  x : ℚ
  y : ℚ
deriving DecidableEq

/-- `class Point` — an immutable point.  The constructor defaults both
coordinates to `0`. -/
structure Point where
  x : ℚ := 0
  y : ℚ := 0
deriving DecidableEq

/-- `Point.equals(p)`:
`diffX = Math.abs(this.x - p.x); diffY = Math.abs(this.y - p.y);
return diffX < 1e-8 && diffY < 1e-8;` -/
def Point.equals (self p : Point) : Bool :=
  let diffX := |self.x - p.x|
  let diffY := |self.y - p.y|
  decide (diffX < 1e-8) && decide (diffY < 1e-8)

/-- `areCollinear(...points)`: returns `true` if fewer than 3 points are
given; otherwise destructures `points[0]` as `(a, b)`, `points[1]` as
`(m, n)`, and checks `points.every(({x, y}) =>
a * (n - y) + m * (y - b) + x * (b - n) < 1e-8)` over the full list. -/
def areCollinear (points : List Point) : Bool :=
  match points with
  | p0 :: p1 :: p2 :: rest =>
    let a := p0.x
    let b := p0.y
    let m := p1.x
    let n := p1.y
    (p0 :: p1 :: p2 :: rest).all fun p =>
      decide (a * (n - p.y) + m * (p.y - b) + p.x * (b - n) < 1e-8)
  | _ => true

/-- `class Matrix` — the standard SVG transformation matrix
`[a c e; b d f; 0 0 1]`; the constructor defaults to the identity
(`a=1, b=0, c=0, d=1, e=0, f=0`). -/
structure Matrix where
  a : ℚ := 1
  b : ℚ := 0
  c : ℚ := 0
  d : ℚ := 1
  e : ℚ := 0
  f : ℚ := 0
deriving DecidableEq

/-- `new Matrix()` — the default-constructed (identity) matrix. -/
def Matrix.identity : Matrix := {}

/-- `Matrix.dot(m)` — the product `this * m` of the two affine matrices,
entry for entry as written in the source. -/
def Matrix.dot (self m : Matrix) : Matrix :=
  Matrix.mk
    (self.a * m.a + self.c * m.b)
    (self.b * m.a + self.d * m.b)
    (self.a * m.c + self.c * m.d)
    (self.b * m.c + self.d * m.d)
    (self.a * m.e + self.c * m.f + self.e)
    (self.b * m.e + self.d * m.f + self.f)

/-- `Matrix.invert()` — the closed-form inverse written in the source.
(In ℚ, division by zero yields 0; the claims only use it when
`a*d - b*c ≠ 0`.) -/
def Matrix.invert (m : Matrix) : Matrix :=
  Matrix.mk
    (m.d / (m.a * m.d - m.b * m.c))
    (m.b / (m.b * m.c - m.a * m.d))
    (m.c / (m.b * m.c - m.a * m.d))
    (m.a / (m.a * m.d - m.b * m.c))
    ((m.d * m.e - m.c * m.f) / (m.b * m.c - m.a * m.d))
    ((m.b * m.e - m.a * m.f) / (m.a * m.d - m.b * m.c))

/-- `transform(point, ...matrices)`: folds over the matrices from the left,
starting from `new Point(point.x, point.y)`, applying
`[a c e; b d f; 0 0 1] * [x, y, 1]ᵀ` at each step. -/
def transform (point : IPoint) (matrices : List Matrix) : Point :=
  matrices.foldl
    (fun p m => Point.mk
      (m.a * p.x + m.c * p.y + m.e * 1)
      (m.b * p.x + m.d * p.y + m.f * 1))
    (Point.mk point.x point.y)

/-- `distance(p1, p2) = Math.sqrt(Math.pow(p2.x - p1.x, 2) + Math.pow(p2.y - p1.y, 2))`. -/
noncomputable def distance (p1 p2 : IPoint) : ℝ :=
  Real.sqrt (((p2.x - p1.x : ℚ) : ℝ) ^ 2 + ((p2.y - p1.y : ℚ) : ℝ) ^ 2)

/-- Truncation toward zero, as JavaScript's `%` truncates its quotient. -/
def jsTrunc (q : ℚ) : ℤ :=
  if q < 0 then ⌈q⌉ else ⌊q⌋

/-- JavaScript's `%` (remainder): `num - maxNum * trunc(num / maxNum)`,
the IEEE remainder with the quotient truncated toward zero.  (For
`maxNum = 0` JavaScript yields `NaN`; here the quotient `0` gives back
`num`, a case no claim depends on.) -/
def jsRem (num maxNum : ℚ) : ℚ :=
  num - maxNum * jsTrunc (num / maxNum)

/-- `floorMod(num, maxNum) = ((num % maxNum) + maxNum) % maxNum`. -/
def floorMod (num maxNum : ℚ) : ℚ :=
  jsRem (jsRem num maxNum + maxNum) maxNum

/-- `flattenTransforms(matricies) = matricies.reduce((prev, curr) => curr.dot(prev), new Matrix())`. -/
def flattenTransforms (matricies : List Matrix) : Matrix :=
  matricies.foldl (fun prev curr => curr.dot prev) Matrix.identity

/-- `Math.hypot(x, y)` on exact inputs. -/
noncomputable def hypot (x y : ℚ) : ℝ :=
  Real.sqrt ((x : ℝ) ^ 2 + (y : ℝ) ^ 2)

/-- `Matrix.getScale()`: maps the unit vectors `(0,1)` and `(1,0)` through
the linear part (translation zeroed), and returns
`|cross| / max(|vecA|, |vecB|)`, or `0` when that max is not positive. -/
noncomputable def Matrix.getScale (self : Matrix) : ℝ :=
  let matrix := Matrix.mk self.a self.b self.c self.d 0 0
  let vecA := transform (IPoint.mk 0 1) [matrix]
  let vecB := transform (IPoint.mk 1 0) [matrix]
  let scaleX := hypot vecA.x vecA.y
  let scaleY := hypot vecB.x vecB.y
  let crossProduct := ((vecA.y * vecB.x - vecA.x * vecB.y : ℚ) : ℝ)
  let maxScale := max scaleX scaleY
  if maxScale > 0 then |crossProduct| / maxScale else 0

/-- A JavaScript number for the non-finite analysis of `Point.equals`: an
exact finite value, `NaN`, `Infinity`, or `-Infinity`. -/
inductive JsNum where
  | nan : JsNum
  | inf : JsNum
  | ninf : JsNum
  | val : ℚ → JsNum
deriving DecidableEq

/-- JavaScript subtraction: `NaN` propagates, `Infinity - Infinity` and
`(-Infinity) - (-Infinity)` are `NaN`, and otherwise an infinite operand
determines the (infinite) result. -/
def JsNum.sub : JsNum → JsNum → JsNum
  | JsNum.val a, JsNum.val b => JsNum.val (a - b)
  | JsNum.inf, JsNum.val _ => JsNum.inf
  | JsNum.inf, JsNum.ninf => JsNum.inf
  | JsNum.val _, JsNum.ninf => JsNum.inf
  | JsNum.ninf, JsNum.val _ => JsNum.ninf
  | JsNum.ninf, JsNum.inf => JsNum.ninf
  | JsNum.val _, JsNum.inf => JsNum.ninf
  | _, _ => JsNum.nan

/-- `Math.abs`: `NaN` propagates and `|±Infinity| = Infinity`. -/
def JsNum.abs : JsNum → JsNum
  | JsNum.val a => JsNum.val |a|
  | JsNum.inf => JsNum.inf
  | JsNum.ninf => JsNum.inf
  | JsNum.nan => JsNum.nan

/-- JavaScript `<`: any comparison with `NaN` is `false`; `-Infinity` is
below and `Infinity` above every non-`NaN` value. -/
def JsNum.ltb : JsNum → JsNum → Bool
  | JsNum.val a, JsNum.val b => decide (a < b)
  | JsNum.val _, JsNum.inf => true
  | JsNum.ninf, JsNum.val _ => true
  | JsNum.ninf, JsNum.inf => true
  | _, _ => false

/-- A finite JavaScript number: neither `NaN` nor `±Infinity`. -/
def JsNum.finite : JsNum → Bool
  | JsNum.val _ => true
  | _ => false

/-- A point whose coordinates may be `NaN`. -/
structure JsPoint where
  x : JsNum
  y : JsNum
deriving DecidableEq

/-- `Point.equals` over the `NaN`-aware number model, line for line:
`diffX = Math.abs(this.x - p.x); diffY = Math.abs(this.y - p.y);
return diffX < 1e-8 && diffY < 1e-8;`. -/
def JsPoint.equals (self p : JsPoint) : Bool :=
  let diffX := JsNum.abs (JsNum.sub self.x p.x)
  let diffY := JsNum.abs (JsNum.sub self.y p.y)
  JsNum.ltb diffX (JsNum.val 1e-8) && JsNum.ltb diffY (JsNum.val 1e-8)

end ShapeShifter

namespace ShapeShifter

/-- C1: `flattenTransforms(ms)` is the left fold of `ms` with
`(prev, curr) ↦ curr.dot(prev)` starting from the identity matrix; in
particular `flattenTransforms([])` is the identity and
`flattenTransforms([A, B]) = B.dot(A)` for all matrices `A`, `B`. -/
theorem C1_flattenTransforms_is_reverse_fold :
    (∀ ms : List Matrix,
      flattenTransforms ms = ms.foldl (fun prev curr => curr.dot prev) Matrix.identity)
    ∧ flattenTransforms [] = Matrix.identity
    ∧ ∀ A B : Matrix, flattenTransforms [A, B] = B.dot A := by
  refine ⟨fun ms => rfl, rfl, fun A B => ?_⟩
  show (B.dot (A.dot Matrix.identity)) = B.dot A
  simp only [Matrix.dot, Matrix.identity, Matrix.mk.injEq]
  norm_num

/-- C8: the default-constructed matrix is a two-sided identity for `dot`:
`M.dot(new Matrix()) = M` and `(new Matrix()).dot(M) = M`. -/
theorem C8_dot_identity_law (M : Matrix) :
    M.dot Matrix.identity = M ∧ Matrix.identity.dot M = M := by
  constructor <;>
    · simp only [Matrix.dot, Matrix.identity, Matrix.mk.injEq]
      norm_num

/-- C2: `transform(p, m1, ..., mn)` left-folds from the original point,
applying each matrix in the given order via `x' = a·x + c·y + e`,
`y' = b·x + d·y + f`; with zero matrices it returns a `Point` with `p`'s
coordinates (and by its type it always returns a `Point`). -/
theorem C2_transform_is_left_fold :
    (∀ (p : IPoint) (ms : List Matrix),
      transform p ms = ms.foldl
        (fun q m => Point.mk (m.a * q.x + m.c * q.y + m.e) (m.b * q.x + m.d * q.y + m.f))
        (Point.mk p.x p.y))
    ∧ ∀ p : IPoint, transform p [] = Point.mk p.x p.y := by
  constructor
  · intro p ms
    unfold transform
    congr 1
    funext q m
    simp [mul_one]
  · intro p
    rfl

/-- C4: `p.equals(q)` is true iff `|p.x − q.x| < 1e-8` and `|p.y − q.y| < 1e-8`,
with strict less-than: coordinates exactly `1e-8` apart are not equal;
`Point(0,0).equals(Point(0, 0.99e-8))` is true and
`Point(0,0).equals(Point(0, 1.01e-8))` is false. -/
theorem C4_point_equals_strict_tolerance :
    (∀ p q : Point, p.equals q = true ↔ (|p.x - q.x| < 1e-8 ∧ |p.y - q.y| < 1e-8))
    ∧ (∀ p q : Point, |p.x - q.x| = 1e-8 → p.equals q = false)
    ∧ (Point.mk 0 0).equals (Point.mk 0 0.99e-8) = true
    ∧ (Point.mk 0 0).equals (Point.mk 0 1.01e-8) = false := by
  refine ⟨?_, ?_, ?_, ?_⟩
  · intro p q
    simp [Point.equals]
  · intro p q h
    simp [Point.equals, h]
  · simp [Point.equals]
    norm_num [abs_lt]
  · simp [Point.equals]
    norm_num [le_abs]

/-- Witness for C4: the points `(1e-8, 0)` and `(0, 0)` have x-coordinates
exactly `1e-8` apart and are not `equals`. -/
theorem C4_point_equals_strict_tolerance_witness :
    |(Point.mk 1e-8 0).x - (Point.mk 0 0).x| = 1e-8
    ∧ (Point.mk 1e-8 0).equals (Point.mk 0 0) = false :=
  ⟨by norm_num,
   C4_point_equals_strict_tolerance.2.1 (Point.mk 1e-8 0) (Point.mk 0 0) (by norm_num)⟩

/-- C5: `areCollinear` is true for fewer than 3 points; for 3 or more points
it is true iff every point `(x, y)` of the full list satisfies the signed
comparison `a·(n − y) + m·(y − b) + x·(b − n) < 1e-8` against the first two
points `(a, b)`, `(m, n)`; `areCollinear((0,0), (1,1), (2,2))` is true and
`areCollinear((0,0), (1,1), (2,3))` is false. -/
theorem C5_areCollinear_signed_area :
    (∀ ps : List Point, ps.length < 3 → areCollinear ps = true)
    ∧ (∀ (p0 p1 p2 : Point) (rest : List Point),
        areCollinear (p0 :: p1 :: p2 :: rest) = true ↔
          ∀ p ∈ p0 :: p1 :: p2 :: rest,
            p0.x * (p1.y - p.y) + p1.x * (p.y - p0.y) + p.x * (p0.y - p1.y) < 1e-8)
    ∧ areCollinear [Point.mk 0 0, Point.mk 1 1, Point.mk 2 2] = true
    ∧ areCollinear [Point.mk 0 0, Point.mk 1 1, Point.mk 2 3] = false := by
  refine ⟨?_, ?_, ?_, ?_⟩
  · intro ps h
    match ps with
    | [] => rfl
    | [_] => rfl
    | [_, _] => rfl
    | _ :: _ :: _ :: _ => simp at h; omega
  · intro p0 p1 p2 rest
    simp [areCollinear, List.all_eq_true]
  · simp [areCollinear]
    norm_num
  · simp [areCollinear]
    norm_num

/-- Witness for C5: the empty list has fewer than 3 points and is collinear. -/
theorem C5_areCollinear_signed_area_witness :
    ([] : List Point).length < 3 ∧ areCollinear [] = true :=
  ⟨by decide, C5_areCollinear_signed_area.1 [] (by decide)⟩

/-- C3: for a matrix with `a·d − b·c ≠ 0`, transforming any point by `M` and
then by `M.invert()` returns the point, well within the 1e-6 coordinate
tolerance (the round trip is exact in exact arithmetic). -/
theorem C3_invert_round_trip (M : Matrix) (p : IPoint)
    (h : M.a * M.d - M.b * M.c ≠ 0) :
    |(transform p [M, M.invert]).x - p.x| < 1e-6
    ∧ |(transform p [M, M.invert]).y - p.y| < 1e-6 := by
  have h2 : M.b * M.c - M.a * M.d ≠ 0 := by
    intro hc
    apply h
    linarith
  have hx : (transform p [M, M.invert]).x = p.x := by
    simp only [transform, Matrix.invert, List.foldl]
    field_simp
    ring
  have hy : (transform p [M, M.invert]).y = p.y := by
    simp only [transform, Matrix.invert, List.foldl]
    field_simp
    ring
  rw [hx, hy]
  norm_num

/-- Witness for C3: the spec's sample `M = Matrix(2,0,0,3,5,7)`, `p = (1,1)`. -/
theorem C3_invert_round_trip_witness :
    (Matrix.mk 2 0 0 3 5 7).a * (Matrix.mk 2 0 0 3 5 7).d
        - (Matrix.mk 2 0 0 3 5 7).b * (Matrix.mk 2 0 0 3 5 7).c ≠ 0
    ∧ |(transform (IPoint.mk 1 1) [Matrix.mk 2 0 0 3 5 7, (Matrix.mk 2 0 0 3 5 7).invert]).x
        - (IPoint.mk 1 1).x| < 1e-6
    ∧ |(transform (IPoint.mk 1 1) [Matrix.mk 2 0 0 3 5 7, (Matrix.mk 2 0 0 3 5 7).invert]).y
        - (IPoint.mk 1 1).y| < 1e-6 :=
  ⟨by norm_num,
   C3_invert_round_trip (Matrix.mk 2 0 0 3 5 7) (IPoint.mk 1 1) (by norm_num)⟩

/-- For a positive modulus, the JS remainder lies in `(-b, b)`, and is
nonnegative when the dividend is. -/
theorem jsRem_bounds (a b : ℚ) (hb : 0 < b) :
    -b < jsRem a b ∧ jsRem a b < b ∧ (0 ≤ a → 0 ≤ jsRem a b) := by
  have hb0 : b ≠ 0 := ne_of_gt hb
  have hab : b * (a / b) = a := by field_simp
  unfold jsRem jsTrunc
  by_cases hq : a / b < 0
  · rw [if_pos hq]
    have h1 : (a / b : ℚ) ≤ ⌈a / b⌉ := Int.le_ceil _
    have h2 : ((⌈a / b⌉ : ℤ) : ℚ) < a / b + 1 := Int.ceil_lt_add_one _
    refine ⟨by nlinarith, by nlinarith, fun ha => ?_⟩
    exfalso
    have : 0 ≤ a / b := div_nonneg ha (le_of_lt hb)
    linarith
  · rw [if_neg hq]
    push_neg at hq
    have h1 : ((⌊a / b⌋ : ℤ) : ℚ) ≤ a / b := Int.floor_le _
    have h2 : a / b < ⌊a / b⌋ + 1 := Int.lt_floor_add_one _
    exact ⟨by nlinarith, by nlinarith, fun ha => by nlinarith⟩

/-- C7: `floorMod(num, maxNum)` is `((num % maxNum) + maxNum) % maxNum`; for
positive `maxNum` the result lies in `[0, maxNum)` for every `num`, negative
included; `floorMod(-1, 5) = 4` and `floorMod(7, 5) = 2`. -/
theorem C7_floorMod_range :
    (∀ num maxNum : ℚ, floorMod num maxNum = jsRem (jsRem num maxNum + maxNum) maxNum)
    ∧ (∀ num maxNum : ℚ, 0 < maxNum →
        0 ≤ floorMod num maxNum ∧ floorMod num maxNum < maxNum)
    ∧ floorMod (-1) 5 = 4 ∧ floorMod 7 5 = 2 := by
  refine ⟨fun num maxNum => rfl, ?_, ?_, ?_⟩
  · intro num maxNum hm
    obtain ⟨hgt, -, -⟩ := jsRem_bounds num maxNum hm
    obtain ⟨-, hlt, hnn⟩ := jsRem_bounds (jsRem num maxNum + maxNum) maxNum hm
    exact ⟨hnn (by linarith), hlt⟩
  · have e1 : jsRem (-1 : ℚ) 5 = -1 := by
      unfold jsRem jsTrunc
      norm_num
    unfold floorMod
    rw [e1]
    unfold jsRem jsTrunc
    norm_num
  · have e1 : jsRem (7 : ℚ) 5 = 2 := by
      unfold jsRem jsTrunc
      norm_num
    unfold floorMod
    rw [e1]
    unfold jsRem jsTrunc
    norm_num

/-- Witness for C7: at `num = -1`, `maxNum = 5` the result is in `[0, 5)`. -/
theorem C7_floorMod_range_witness :
    (0 : ℚ) < 5 ∧ 0 ≤ floorMod (-1) 5 ∧ floorMod (-1) 5 < 5 :=
  ⟨by norm_num, C7_floorMod_range.2.1 (-1) 5 (by norm_num)⟩

/-- C9: `distance(p1, p2)` is `sqrt((p2.x − p1.x)² + (p2.y − p1.y)²)`, is
always nonnegative, and is `0` iff the two points' coordinates coincide
exactly. -/
theorem C9_distance_euclidean :
    (∀ p1 p2 : IPoint,
      distance p1 p2
        = Real.sqrt (((p2.x - p1.x : ℚ) : ℝ) ^ 2 + ((p2.y - p1.y : ℚ) : ℝ) ^ 2))
    ∧ (∀ p1 p2 : IPoint, 0 ≤ distance p1 p2)
    ∧ (∀ p1 p2 : IPoint, distance p1 p2 = 0 ↔ (p1.x = p2.x ∧ p1.y = p2.y)) := by
  refine ⟨fun p1 p2 => rfl, fun p1 p2 => Real.sqrt_nonneg _, fun p1 p2 => ?_⟩
  unfold distance
  rw [Real.sqrt_eq_zero']
  have hx := sq_nonneg ((p2.x - p1.x : ℚ) : ℝ)
  have hy := sq_nonneg ((p2.y - p1.y : ℚ) : ℝ)
  constructor
  · intro hsum
    have hx0 : ((p2.x - p1.x : ℚ) : ℝ) ^ 2 = 0 := by linarith
    have hy0 : ((p2.y - p1.y : ℚ) : ℝ) ^ 2 = 0 := by linarith
    rw [pow_eq_zero_iff (by norm_num)] at hx0 hy0
    rw [Rat.cast_eq_zero, sub_eq_zero] at hx0 hy0
    exact ⟨hx0.symm, hy0.symm⟩
  · rintro ⟨h1, h2⟩
    rw [show p2.x - p1.x = 0 by rw [← h1]; ring,
        show p2.y - p1.y = 0 by rw [← h2]; ring]
    norm_num

/-- `Math.abs` of a JavaScript difference does not depend on the order of
the operands, `NaN` and `±Infinity` included. -/
theorem JsNum.absSub_comm (a b : JsNum) :
    JsNum.abs (JsNum.sub a b) = JsNum.abs (JsNum.sub b a) := by
  cases a <;> cases b <;> simp [JsNum.sub, JsNum.abs, abs_sub_comm]

/-- Counterexample to C10 as stated: `Point(Infinity, 0)` has no `NaN`
coordinate, yet is not `equals` to itself, because
`Math.abs(Infinity − Infinity) = NaN` fails the strict `<` comparison. -/
theorem C10_infinity_counterexample :
    (JsPoint.mk JsNum.inf (JsNum.val 0)).equals (JsPoint.mk JsNum.inf (JsNum.val 0)) = false
    ∧ (JsPoint.mk JsNum.inf (JsNum.val 0)).x ≠ JsNum.nan
    ∧ (JsPoint.mk JsNum.inf (JsNum.val 0)).y ≠ JsNum.nan := by
  refine ⟨rfl, ?_, ?_⟩ <;> simp

/-- C10 (amended): `equals` is symmetric for all points, and `p.equals(p)`
is true exactly when both coordinates are finite — neither `NaN` nor
`±Infinity`: a `NaN` coordinate gives `NaN − NaN = NaN`, an infinite one
gives `Infinity − Infinity = NaN` (likewise for `-Infinity`), and either
way the strict tolerance comparison with `NaN` is false. -/
theorem C10_equals_symm_refl_finite :
    (∀ p q : JsPoint, p.equals q = q.equals p)
    ∧ ∀ p : JsPoint,
        (p.equals p = true ↔ (JsNum.finite p.x = true ∧ JsNum.finite p.y = true)) := by
  constructor
  · intro p q
    show JsPoint.equals p q = JsPoint.equals q p
    unfold JsPoint.equals
    rw [JsNum.absSub_comm p.x q.x, JsNum.absSub_comm p.y q.y]
  · rintro ⟨px, py⟩
    cases px <;> cases py <;>
      simp [JsPoint.equals, JsNum.sub, JsNum.abs, JsNum.ltb, JsNum.finite,
        sub_self, abs_zero]
    all_goals norm_num

/-- C6: `getScale()` returns `|vecA.y·vecB.x − vecA.x·vecB.y| / max(|vecA|, |vecB|)`
for `vecA`, `vecB` the images of `(0,1)` and `(1,0)` under the linear part
(so `vecA = (c, d)`, `vecB = (a, b)`), except that it returns `0` when
`max(|vecA|, |vecB|) = 0`; on `Matrix(k,0,0,k,0,0)` with `k > 0` it returns
exactly `k`, and on the all-zero matrix it returns `0`, not `NaN`. -/
theorem C6_getScale_formula :
    (∀ M : Matrix,
      M.getScale =
        if max (hypot M.c M.d) (hypot M.a M.b) = 0 then 0
        else |((M.d * M.a - M.c * M.b : ℚ) : ℝ)| / max (hypot M.c M.d) (hypot M.a M.b))
    ∧ (∀ k : ℚ, 0 < k → (Matrix.mk k 0 0 k 0 0).getScale = ((k : ℚ) : ℝ))
    ∧ (Matrix.mk 0 0 0 0 0 0).getScale = 0 := by
  have key : ∀ M : Matrix,
      M.getScale =
        if 0 < max (hypot M.c M.d) (hypot M.a M.b)
        then |((M.d * M.a - M.c * M.b : ℚ) : ℝ)| / max (hypot M.c M.d) (hypot M.a M.b)
        else 0 := by
    intro M
    unfold Matrix.getScale
    simp only [transform, List.foldl]
    norm_num
  refine ⟨?_, ?_, ?_⟩
  · intro M
    rw [key M]
    have hnn : (0 : ℝ) ≤ max (hypot M.c M.d) (hypot M.a M.b) :=
      le_max_of_le_left (Real.sqrt_nonneg _)
    by_cases hz : max (hypot M.c M.d) (hypot M.a M.b) = 0
    · rw [if_neg (by rw [hz]; exact lt_irrefl 0), if_pos hz]
    · rw [if_pos (lt_of_le_of_ne hnn (Ne.symm hz)), if_neg hz]
  · intro k hk
    have hk' : (0 : ℝ) < (k : ℝ) := by exact_mod_cast hk
    have h1 : hypot 0 k = (k : ℝ) := by
      unfold hypot
      rw [show ((0 : ℚ) : ℝ) ^ 2 + ((k : ℚ) : ℝ) ^ 2 = ((k : ℚ) : ℝ) ^ 2 by norm_num,
          Real.sqrt_sq_eq_abs, abs_of_pos hk']
    have h2 : hypot k 0 = (k : ℝ) := by
      unfold hypot
      rw [show ((k : ℚ) : ℝ) ^ 2 + ((0 : ℚ) : ℝ) ^ 2 = ((k : ℚ) : ℝ) ^ 2 by norm_num,
          Real.sqrt_sq_eq_abs, abs_of_pos hk']
    rw [key _]
    simp only [h1, h2, max_self]
    rw [if_pos hk']
    rw [show ((k * k - 0 * 0 : ℚ) : ℝ) = (k : ℝ) * (k : ℝ) by push_cast; ring,
        abs_of_pos (mul_pos hk' hk')]
    field_simp
  · have h0 : hypot 0 0 = (0 : ℝ) := by
      unfold hypot
      norm_num
    rw [key _]
    simp only [h0, max_self]
    rw [if_neg (lt_irrefl 0)]

/-- Witness for C6: the uniform scale matrix with `k = 2` has scale `2`. -/
theorem C6_getScale_formula_witness :
    (0 : ℚ) < 2 ∧ (Matrix.mk 2 0 0 2 0 0).getScale = ((2 : ℚ) : ℝ) :=
  ⟨by norm_num, C6_getScale_formula.2.1 2 (by norm_num)⟩

end ShapeShifter
